import Mathlib

/-!
# Verification of the RFID jukebox control loop

Shallow embedding of the presence-reconciliation and volume-control logic of
`src/main.cpp`, the UID-to-track routing of `src/CardRouter.cpp`, and the
track-to-filename construction of `src/AudioPlayer.cpp`
(repository `MAInD-Digital_Fabrication-2025-Synesthesia`).

The main loop (`loop()` in `main.cpp`) is split, as in the source, into a
volume-control step and a card-detection (presence reconciliation) step.
Calls to the audio module are modelled as an explicit action list emitted by
each step; the mutable globals `currentUID`, `isPlaying`, `missedReads` and
`lastVolume` become explicit state threaded through the step functions.
-/

namespace Jukebox

/-- Calls a tick can issue to the `AudioPlayer` (the Playback Controller). -/
inductive AudioCall where
  | pause : AudioCall
  | playTrack (track : Nat) : AudioCall
  | setVolume (vol : Nat) : AudioCall
deriving DecidableEq, Repr

/-- The reconciler's mutable globals from `main.cpp`:
`String currentUID = ""`, `bool isPlaying = false`, `int missedReads = 0`. -/
structure ReconcilerState where
  currentUID : String
  isPlaying : Bool
  missedReads : Nat
deriving DecidableEq, Repr

/-- `const int REMOVAL_THRESHOLD = 5` (main.cpp line 51). -/
def REMOVAL_THRESHOLD : Nat := 5

/-- `const uint8_t MIN_VOLUME = 1` (main.cpp line 37). -/
def MIN_VOLUME : Nat := 1

/-- `const uint8_t MAX_VOLUME = 25` (main.cpp line 38). -/
def MAX_VOLUME : Nat := 25

/-- Initial values of the state variables (main.cpp lines 47-50). -/
def initialState : ReconcilerState :=
  { currentUID := "", isPlaying := false, missedReads := 0 }

/-- `trackForUID` from `CardRouter.cpp`: maps a card UID to a track number,
returning 0 for unknown cards. -/
def trackForUID (uid : String) : Nat :=
  if uid = "C1:9E:CC:E4" then 1
  else if uid = "B1:A0:CC:E4" then 2
  else if uid = "E1:96:CC:E4" then 3
  else if uid = "91:A2:CC:E4" then 4
  else if uid = "F1:94:CC:E4" then 5
  else if uid = "C1:98:CC:E4" then 6
  else 0

/-- One presence sample: `some uid` when `rfid.readCard(uid)` succeeded,
`none` when no card was detected this tick. -/
abbrev PresenceSample := Option String

/-- The card-detection part of `loop()` (main.cpp lines 114-166), as a step
function from a prior state and one presence sample to the next state and the
list of `AudioPlayer` calls issued during that tick. -/
def presenceTick (s : ReconcilerState) (sample : PresenceSample) :
    ReconcilerState × List AudioCall :=
  match sample with
  | some uid =>
    -- card detected: `missedReads = 0`, then compare with `currentUID`
    if uid = s.currentUID then
      -- same card still present: no call
      ({ currentUID := s.currentUID, isPlaying := s.isPlaying, missedReads := 0 }, [])
    else
      -- new or different card: `currentUID = uid`, look up the track
      if trackForUID uid = 0 then
        ({ currentUID := uid, isPlaying := false, missedReads := 0 },
         if s.isPlaying then [AudioCall.pause] else [])
      else
        ({ currentUID := uid, isPlaying := true, missedReads := 0 },
         [AudioCall.playTrack (trackForUID uid)])
  | none =>
    -- no card detected this tick
    if s.currentUID = "" then
      (s, [])
    else
      if REMOVAL_THRESHOLD ≤ s.missedReads + 1 then
        -- card removed: pause only if playing, then reset the state
        ({ currentUID := "", isPlaying := false, missedReads := 0 },
         if s.isPlaying then [AudioCall.pause] else [])
      else
        ({ currentUID := s.currentUID, isPlaying := s.isPlaying,
           missedReads := s.missedReads + 1 }, [])

/-- Iterate `presenceTick` over a list of samples, concatenating the calls. -/
def runTicks (s : ReconcilerState) : List PresenceSample → ReconcilerState × List AudioCall
  | [] => (s, [])
  | sample :: rest =>
    let r := presenceTick s sample
    let r2 := runTicks r.1 rest
    (r2.1, r.2 ++ r2.2)

/-- `map(potValue, 0, 1023, MIN_VOLUME, MAX_VOLUME)` (main.cpp line 105):
Arduino's `map` computes `(x - 0) * (25 - 1) / (1023 - 0) + 1` in integer
arithmetic, which for a non-negative reading is `pot * 24 / 1023 + 1`. -/
def mapVolume (pot : Nat) : Nat :=
  pot * (MAX_VOLUME - MIN_VOLUME) / 1023 + MIN_VOLUME

/-- The volume-control part of `loop()` (main.cpp lines 104-112): the state is
`lastVolume : int`, initialized to `-1`; a `setVolume` call is issued exactly
when the freshly mapped value differs from `lastVolume`. -/
def volumeTick (lastVolume : Int) (pot : Nat) : Int × List AudioCall :=
  let currentVolume : Nat := mapVolume pot
  if (currentVolume : Int) = lastVolume then
    (lastVolume, [])
  else
    ((currentVolume : Int), [AudioCall.setVolume currentVolume])

/-- Iterate `volumeTick` over a list of potentiometer readings. -/
def runVolume (lastVolume : Int) : List Nat → Int × List AudioCall
  | [] => (lastVolume, [])
  | pot :: rest =>
    let r := volumeTick lastVolume pot
    let r2 := runVolume r.1 rest
    (r2.1, r.2 ++ r2.2)

/-- The clamp in `AudioPlayer::setVolume` (AudioPlayer.cpp line 72):
`if (vol > 30) vol = 30`. -/
def setVolumeClamp (vol : Nat) : Nat :=
  if 30 < vol then 30 else vol

/-- The filename built by `AudioPlayer::playTrack` (AudioPlayer.cpp lines
96-101): `"/"` plus a hand-rolled zero prefix plus the decimal track number
plus `".mp3"`. -/
def trackFilename (track : Nat) : String :=
  "/" ++ (if track < 10 then "000"
          else if track < 100 then "00"
          else if track < 1000 then "0"
          else "") ++ Nat.repr track ++ ".mp3"

/-- The AT commands sent over `Serial1` by `AudioPlayer::playTrack`
(AudioPlayer.cpp lines 90-110): nothing for track 0, otherwise the
`AT+PLAYFILE` command built by `playFile` followed by re-enforcing loop mode. -/
def playTrackCmds (track : Nat) : List String :=
  if track = 0 then []
  else ["AT+PLAYFILE=" ++ trackFilename track, "AT+PLAYMODE=1"]

/-- Spec-side definition for claim C10, following the spec's words: the
decimal track number left-padded with zeros to exactly 4 digits. -/
def padLeft4Spec (s : String) : String :=
  String.mk (List.replicate (4 - s.length) '0') ++ s

/-- Spec-side path for claim C10: `"/"` plus the 4-digit padded decimal
track number plus `".mp3"`. -/
def specTrackPath (track : Nat) : String :=
  "/" ++ padLeft4Spec (Nat.repr track) ++ ".mp3"

/-- The two state invariants of §3 of the spec. -/
def ReconcilerInv (s : ReconcilerState) : Prop :=
  (s.isPlaying = true → s.currentUID ≠ "") ∧
  (0 < s.missedReads → s.currentUID ≠ "")

/-! ## Helper lemmas -/

/-- A single tick issues at most one Playback Controller call. -/
lemma presenceTick_calls_length (s : ReconcilerState) (sample : PresenceSample) :
    (presenceTick s sample).2.length ≤ 1 := by
  cases sample <;> simp only [presenceTick] <;> split_ifs <;>
    cases s.isPlaying <;> simp

lemma runTicks_append (s : ReconcilerState) (l1 l2 : List PresenceSample) :
    runTicks s (l1 ++ l2) =
      ((runTicks (runTicks s l1).1 l2).1,
       (runTicks s l1).2 ++ (runTicks (runTicks s l1).1 l2).2) := by
  induction l1 generalizing s with
  | nil => simp [runTicks]
  | cons sample rest ih => simp [runTicks, ih, List.append_assoc]

/-- With no active card, an absent sample changes nothing. -/
lemma presenceTick_idle : presenceTick initialState none = (initialState, []) := by
  simp [presenceTick, initialState]

lemma runTicks_idle (k : Nat) :
    runTicks initialState (List.replicate k none) = (initialState, []) := by
  induction k with
  | zero => simp [runTicks]
  | succ k ih => simp [List.replicate_succ, runTicks, presenceTick_idle, ih]

/-- A present sample of the active identity only clears the miss counter. -/
lemma presenceTick_same (T : String) (p : Bool) (m : Nat) :
    presenceTick ⟨T, p, m⟩ (some T) = (⟨T, p, 0⟩, []) := by
  simp [presenceTick]

/-- After any present sample, the sampled identity is active and the miss
counter is 0. -/
lemma presenceTick_some_shape (s : ReconcilerState) (T : String) :
    (presenceTick s (some T)).1 =
      ⟨T, (presenceTick s (some T)).1.isPlaying, 0⟩ := by
  simp only [presenceTick]
  split_ifs with h1 h2 h3
  · simp [h1]
  · rfl
  · rfl
  · rfl

/-- Repeated presence of the already-active identity is a no-op. -/
lemma runTicks_replicate_same (k : Nat) (T : String) (p : Bool) :
    runTicks ⟨T, p, 0⟩ (List.replicate k (some T)) = (⟨T, p, 0⟩, []) := by
  induction k with
  | zero => simp [runTicks]
  | succ k ih => simp [List.replicate_succ, runTicks, presenceTick_same, ih]

/-- A run of presence samples of one identity is equivalent to a single one. -/
lemma runTicks_replicate_some (s : ReconcilerState) (T : String) (k : Nat)
    (hk : 1 ≤ k) :
    runTicks s (List.replicate k (some T)) = runTicks s [some T] := by
  obtain ⟨k, rfl⟩ : ∃ j, k = j + 1 := ⟨k - 1, by omega⟩
  rw [List.replicate_succ]
  simp only [runTicks]
  rw [presenceTick_some_shape s T, runTicks_replicate_same]
  try simp

/-- An absent sample below the removal threshold only increments the miss
counter. -/
lemma presenceTick_miss (T : String) (p : Bool) (m : Nat) (hT : T ≠ "")
    (hm : m + 1 < REMOVAL_THRESHOLD) :
    presenceTick ⟨T, p, m⟩ none = (⟨T, p, m + 1⟩, []) := by
  simp [presenceTick, hT, Nat.not_le.mpr hm]

/-- An absent sample reaching the removal threshold resets the state and
pauses exactly when playing. -/
lemma presenceTick_removal (T : String) (p : Bool) (m : Nat) (hT : T ≠ "")
    (hm : REMOVAL_THRESHOLD ≤ m + 1) :
    presenceTick ⟨T, p, m⟩ none =
      (initialState, if p then [AudioCall.pause] else []) := by
  simp [presenceTick, hT, hm, initialState]

/-- The new-card branch of the card-detection logic. -/
lemma presenceTick_new (s : ReconcilerState) (T : String)
    (hne : ¬ T = s.currentUID) :
    presenceTick s (some T) =
      (if trackForUID T = 0 then
        ({ currentUID := T, isPlaying := false, missedReads := 0 },
         if s.isPlaying then [AudioCall.pause] else [])
      else
        ({ currentUID := T, isPlaying := true, missedReads := 0 },
         [AudioCall.playTrack (trackForUID T)])) := by
  simp [presenceTick, hne]

/-- Five consecutive absences from an active state reach the removal event
exactly once, whatever the current miss count below the threshold. -/
lemma runTicks_removal_five (u : String) (p : Bool) (m : Nat) (hT : u ≠ "")
    (hm : m < REMOVAL_THRESHOLD) :
    runTicks ⟨u, p, m⟩ (List.replicate REMOVAL_THRESHOLD none) =
      (initialState, if p then [AudioCall.pause] else []) := by
  simp only [REMOVAL_THRESHOLD] at hm ⊢
  interval_cases m <;>
    simp [runTicks, presenceTick, hT, initialState, REMOVAL_THRESHOLD,
      List.replicate_succ, presenceTick_idle]

/-- Readings that all map to the already-applied value issue no call. -/
lemma runVolume_const (v : Nat) (pots : List Nat)
    (hall : ∀ p ∈ pots, mapVolume p = v) :
    runVolume (v : Int) pots = ((v : Int), []) := by
  induction pots with
  | nil => simp [runVolume]
  | cons p rest ih =>
    have hp : mapVolume p = v := hall p (by simp)
    have hrest := ih (fun q hq => hall q (by simp [hq]))
    simp [runVolume, volumeTick, hp, hrest]

/-! ### Decimal-representation lengths, for the filename-padding claim -/

lemma repr_core (n : Nat) :
    (Nat.repr n).length = (Nat.toDigitsCore 10 (n + 1) n []).length := rfl

lemma toDigitsCore_len_one (f n : Nat) (h : n < 10) :
    (Nat.toDigitsCore 10 (f + 1) n []).length = 1 := by
  have h10 : n / 10 = 0 := Nat.div_eq_of_lt h
  simp [Nat.toDigitsCore, h10]

lemma toDigitsCore_len_step (f n : Nat) (h : ¬ n / 10 = 0) :
    (Nat.toDigitsCore 10 (f + 2) n []).length =
      (Nat.toDigitsCore 10 (f + 1) (n / 10) []).length + 1 := by
  conv_lhs => rw [Nat.toDigitsCore]
  simp only [h, if_false]
  exact Nat.toDigitsCore_lens_eq 10 (f + 1) (n / 10) _ []

lemma div10_ne_zero {n : Nat} (h : 10 ≤ n) : ¬ n / 10 = 0 := by
  have h1 : 1 ≤ n / 10 := (Nat.le_div_iff_mul_le (by norm_num)).mpr (by omega)
  omega

lemma div10_lt {n k : Nat} (h : n < 10 * k) : n / 10 < k :=
  Nat.div_lt_of_lt_mul (by omega)

lemma toDigitsCore_len_two (f n : Nat) (h1 : 10 ≤ n) (h2 : n < 100) :
    (Nat.toDigitsCore 10 (f + 2) n []).length = 2 := by
  rw [toDigitsCore_len_step f n (div10_ne_zero h1),
    toDigitsCore_len_one f (n / 10) (div10_lt (by omega))]

lemma toDigitsCore_len_three (f n : Nat) (h1 : 100 ≤ n) (h2 : n < 1000) :
    (Nat.toDigitsCore 10 (f + 3) n []).length = 3 := by
  have hstep := toDigitsCore_len_step (f + 1) n (div10_ne_zero (by omega))
  rw [show f + 3 = f + 1 + 2 by omega] at *
  rw [hstep, toDigitsCore_len_two f (n / 10)
    ((Nat.le_div_iff_mul_le (by norm_num)).mpr (by omega))
    (div10_lt (by omega))]

lemma toDigitsCore_len_four (f n : Nat) (h1 : 1000 ≤ n) (h2 : n < 10000) :
    (Nat.toDigitsCore 10 (f + 4) n []).length = 4 := by
  have hstep := toDigitsCore_len_step (f + 2) n (div10_ne_zero (by omega))
  rw [show f + 4 = f + 2 + 2 by omega] at *
  rw [hstep]
  rw [show f + 2 + 1 = f + 3 by omega]
  rw [toDigitsCore_len_three f (n / 10)
    ((Nat.le_div_iff_mul_le (by norm_num)).mpr (by omega))
    (div10_lt (by omega))]

lemma repr_len1 (n : Nat) (h : n < 10) : (Nat.repr n).length = 1 := by
  rw [repr_core]
  exact toDigitsCore_len_one n n h

lemma repr_len2 (n : Nat) (h1 : 10 ≤ n) (h2 : n < 100) :
    (Nat.repr n).length = 2 := by
  rw [repr_core, show n + 1 = (n - 1) + 2 by omega]
  exact toDigitsCore_len_two (n - 1) n h1 h2

lemma repr_len3 (n : Nat) (h1 : 100 ≤ n) (h2 : n < 1000) :
    (Nat.repr n).length = 3 := by
  rw [repr_core, show n + 1 = (n - 2) + 3 by omega]
  exact toDigitsCore_len_three (n - 2) n h1 h2

lemma repr_len4 (n : Nat) (h1 : 1000 ≤ n) (h2 : n < 10000) :
    (Nat.repr n).length = 4 := by
  rw [repr_core, show n + 1 = (n - 3) + 4 by omega]
  exact toDigitsCore_len_four (n - 3) n h1 h2

lemma string_append_assoc (a b c : String) : a ++ b ++ c = a ++ (b ++ c) := by
  apply String.ext
  simp [String.data_append]

lemma pad_of_len (s : String) (k : Nat) (h : s.length = k)
    (z : String) (hz : String.mk (List.replicate (4 - k) '0') = z) :
    padLeft4Spec s = z ++ s := by
  unfold padLeft4Spec
  rw [h, hz]

/-- The hand-rolled zero prefix of `AudioPlayer::playTrack` produces exactly
the 4-digit left-padded decimal filename for tracks 1..9999. -/
lemma trackFilename_eq_spec (t : Nat) (h1 : 1 ≤ t) (h2 : t ≤ 9999) :
    trackFilename t = specTrackPath t := by
  unfold trackFilename specTrackPath
  by_cases ha : t < 10
  · rw [pad_of_len _ 1 (repr_len1 t ha) "000" (by decide), if_pos ha,
      string_append_assoc "/" "000" (Nat.repr t)]
  · by_cases hb : t < 100
    · rw [pad_of_len _ 2 (repr_len2 t (by omega) hb) "00" (by decide),
        if_neg ha, if_pos hb, string_append_assoc "/" "00" (Nat.repr t)]
    · by_cases hc : t < 1000
      · rw [pad_of_len _ 3 (repr_len3 t (by omega) hc) "0" (by decide),
          if_neg ha, if_neg hb, if_pos hc,
          string_append_assoc "/" "0" (Nat.repr t)]
      · rw [pad_of_len _ 4 (repr_len4 t (by omega) (by omega)) "" (by decide),
          if_neg ha, if_neg hb, if_neg hc,
          string_append_assoc "/" "" (Nat.repr t)]

/-! ## Claim theorems -/

/-- C8. Per-tick call bound: on every tick, for every presence sample and
every prior state, the presence reconciler issues at most one Playback
Controller call. -/
theorem per_tick_call_bound (s : ReconcilerState) (sample : PresenceSample) :
    (presenceTick s sample).2.length ≤ 1 :=
  presenceTick_calls_length s sample

/-- C3. State invariants: the initial state satisfies both invariants
(`isPlaying → activeIdentity ≠ empty` and `missCount > 0 → activeIdentity ≠
empty`), and every tick whose present sample carries a non-empty identity
preserves them. -/
theorem state_invariants :
    ReconcilerInv initialState ∧
    ∀ (s : ReconcilerState) (sample : PresenceSample),
      ReconcilerInv s → (∀ u, sample = some u → u ≠ "") →
      ReconcilerInv (presenceTick s sample).1 := by
  constructor
  · exact ⟨by simp [initialState], by simp [initialState]⟩
  · intro s sample hinv hsample
    obtain ⟨h1, h2⟩ := hinv
    cases sample with
    | none =>
      simp only [presenceTick]
      split_ifs with hu hth hp
      · exact ⟨h1, h2⟩
      · exact ⟨by simp, by simp⟩
      · exact ⟨by simp, by simp⟩
      · exact ⟨h1, fun _ => hu⟩
    | some uid =>
      have huid : uid ≠ "" := hsample uid rfl
      simp only [presenceTick]
      split_ifs with hsame hzero hp
      · exact ⟨fun _ => hsame ▸ huid, by simp⟩
      · exact ⟨by simp, by simp⟩
      · exact ⟨by simp, by simp⟩
      · exact ⟨fun _ => huid, by simp⟩

/-- C6. Unmapped-token pause gating: presenting a token with no mapped track
pauses exactly when `isPlaying` was true (zero pause calls otherwise), and
leaves the state not playing with the unmapped token active.  The hypothesis
that a playing state has a mapped active identity holds in every reachable
state (playback is only ever started by a mapped card). -/
theorem unmapped_pause_gating (s : ReconcilerState) (T : String)
    (hmap : trackForUID T = 0)
    (hplay : s.isPlaying = true → trackForUID s.currentUID ≠ 0) :
    (presenceTick s (some T)).2 =
      (if s.isPlaying then [AudioCall.pause] else []) ∧
    (presenceTick s (some T)).1.isPlaying = false ∧
    (presenceTick s (some T)).1.currentUID = T := by
  cases hp : s.isPlaying with
  | true =>
    have hne : ¬ T = s.currentUID := fun he => (hplay hp) (he ▸ hmap)
    simp [presenceTick, hmap, hne, hp]
  | false =>
    by_cases hsame : T = s.currentUID
    · simp [presenceTick, hsame, hp]
    · simp [presenceTick, hsame, hmap, hp]

/-- C1. Removal exactly-once: from any state with an active token (and a
miss count still below the threshold), a run of `R = 5` (or more) consecutive
absent samples produces exactly one pause call — and that call only if
`isPlaying` was true — and resets the state to
`{activeIdentity = empty, isPlaying = false, missCount = 0}`; the absent
samples beyond the 5th contribute no further call and no state change. -/
theorem removal_exactly_once (s : ReconcilerState) (hT : s.currentUID ≠ "")
    (hm : s.missedReads < REMOVAL_THRESHOLD) (k : Nat)
    (hk : REMOVAL_THRESHOLD ≤ k) :
    runTicks s (List.replicate k none) =
      (initialState, if s.isPlaying then [AudioCall.pause] else []) := by
  obtain ⟨u, p, m⟩ := s
  have hsplit : List.replicate k (none : PresenceSample) =
      List.replicate REMOVAL_THRESHOLD none ++
        List.replicate (k - REMOVAL_THRESHOLD) none := by
    rw [← List.replicate_add]
    congr 1
    omega
  rw [hsplit, runTicks_append, runTicks_removal_five u p m hT hm, runTicks_idle]
  simp

/-- C1 witness: an active playing card followed by 6 absent samples. -/
theorem removal_exactly_once_witness :
    runTicks ⟨"C1:98:CC:E4", true, 0⟩ (List.replicate 6 none) =
      (initialState, [AudioCall.pause]) := by
  have h := removal_exactly_once ⟨"C1:98:CC:E4", true, 0⟩ (by decide) (by decide)
    6 (by decide)
  simpa using h

/-- C2. Debounce: with token T active and a fresh miss count, fewer than
`R = 5` consecutive absences never produce a Playback Controller call and
leave T active (with the running miss count) after every prefix of the gap,
and the following present(T) sample produces no call and restores the state
with T still active. -/
theorem debounce (T : String) (p : Bool) (k : Nat) (hT : T ≠ "")
    (hk : k < REMOVAL_THRESHOLD) :
    (∀ j, j ≤ k →
      runTicks ⟨T, p, 0⟩ (List.replicate j none) = (⟨T, p, j⟩, [])) ∧
    presenceTick ⟨T, p, k⟩ (some T) = (⟨T, p, 0⟩, []) := by
  constructor
  · intro j hj
    induction j with
    | zero => simp [runTicks]
    | succ j ih =>
      rw [List.replicate_succ', runTicks_append, ih (by omega)]
      have hstep := presenceTick_miss T p j hT (by
        simp only [REMOVAL_THRESHOLD] at hk ⊢; omega)
      simp [runTicks, hstep]
  · exact presenceTick_same T p k

/-- C2 witness: 4 absences then re-detection, with the card playing. -/
theorem debounce_witness :
    runTicks ⟨"C1:98:CC:E4", true, 0⟩ (List.replicate 4 none) =
      (⟨"C1:98:CC:E4", true, 4⟩, []) ∧
    presenceTick ⟨"C1:98:CC:E4", true, 4⟩ (some "C1:98:CC:E4") =
      (⟨"C1:98:CC:E4", true, 0⟩, []) :=
  ⟨(debounce "C1:98:CC:E4" true 4 (by decide) (by decide)).1 4 (by decide),
   (debounce "C1:98:CC:E4" true 4 (by decide) (by decide)).2⟩

/-- C4. Same-token idempotence: `k ≥ 1` consecutive present(T) samples are
equivalent (same final state, same calls) to the first one alone, which
issues at most one Playback Controller call; ticks 2..k add nothing. -/
theorem same_token_idempotent (s : ReconcilerState) (T : String) (k : Nat)
    (hk : 1 ≤ k) :
    runTicks s (List.replicate k (some T)) = runTicks s [some T] ∧
    (runTicks s [some T]).2.length ≤ 1 := by
  refine ⟨runTicks_replicate_some s T k hk, ?_⟩
  have h := presenceTick_calls_length s (some T)
  simpa [runTicks] using h

/-- C4 witness: three consecutive presentations of a mapped card. -/
theorem same_token_idempotent_witness :
    runTicks initialState (List.replicate 3 (some "C1:98:CC:E4")) =
      runTicks initialState [some "C1:98:CC:E4"] ∧
    (runTicks initialState [some "C1:98:CC:E4"]).2.length ≤ 1 :=
  same_token_idempotent initialState "C1:98:CC:E4" 3 (by decide)

/-- C5. Re-insertion without absence: after `n ≥ 1` presentations of T1, a
direct presentation of T2 ≠ T1 is decided exactly by T2's mapping —
select-and-loop of its track if mapped, pause-if-playing if unmapped — and
the state reached before that decision is independent of n. -/
theorem reinsertion_identity (s : ReconcilerState) (T1 T2 : String) (n : Nat)
    (hne : T1 ≠ T2) (hn : 1 ≤ n) :
    (runTicks s (List.replicate n (some T1))).1 = (runTicks s [some T1]).1 ∧
    (presenceTick (runTicks s (List.replicate n (some T1))).1 (some T2)).2 =
      (if trackForUID T2 = 0 then
        (if (runTicks s (List.replicate n (some T1))).1.isPlaying then
          [AudioCall.pause] else [])
      else [AudioCall.playTrack (trackForUID T2)]) := by
  have heq := runTicks_replicate_some s T1 n hn
  refine ⟨congrArg Prod.fst heq, ?_⟩
  have hcur : (runTicks s (List.replicate n (some T1))).1.currentUID = T1 := by
    rw [heq]
    have hsingle : (runTicks s [some T1]).1 = (presenceTick s (some T1)).1 := by
      simp [runTicks]
    rw [hsingle, presenceTick_some_shape s T1]
  have hne2 : ¬ T2 = (runTicks s (List.replicate n (some T1))).1.currentUID := by
    rw [hcur]
    exact fun h => hne h.symm
  rw [presenceTick_new _ T2 hne2]
  split_ifs <;> rfl

/-- C5 witness: two presentations of the track-6 card, then the track-1
card with no absence in between. -/
theorem reinsertion_identity_witness :
    (runTicks initialState (List.replicate 2 (some "C1:98:CC:E4"))).1 =
      (runTicks initialState [some "C1:98:CC:E4"]).1 ∧
    (presenceTick (runTicks initialState
        (List.replicate 2 (some "C1:98:CC:E4"))).1 (some "C1:9E:CC:E4")).2 =
      (if trackForUID "C1:9E:CC:E4" = 0 then
        (if (runTicks initialState
            (List.replicate 2 (some "C1:98:CC:E4"))).1.isPlaying then
          [AudioCall.pause] else [])
      else [AudioCall.playTrack (trackForUID "C1:9E:CC:E4")]) :=
  reinsertion_identity initialState "C1:98:CC:E4" "C1:9E:CC:E4" 2
    (by decide) (by decide)

/-- C7. Volume change-gating: a run of readings all mapping to one value
triggers at most one `setVolume` call from any prior applied value; a single
reading whose mapped value differs from the last applied value triggers
exactly one call; and from the sentinel `-1` the first reading always
triggers a call (the mapped value is a natural number, never `-1`). -/
theorem volume_change_gating :
    (∀ (last : Int) (pots : List Nat) (v : Nat),
      (∀ p ∈ pots, mapVolume p = v) → (runVolume last pots).2.length ≤ 1) ∧
    (∀ (last : Int) (pot : Nat), (mapVolume pot : Int) ≠ last →
      (volumeTick last pot).2 = [AudioCall.setVolume (mapVolume pot)]) ∧
    ∀ pot : Nat, (volumeTick (-1) pot).2 =
      [AudioCall.setVolume (mapVolume pot)] := by
  refine ⟨?_, ?_, ?_⟩
  · intro last pots v hall
    cases pots with
    | nil => simp [runVolume]
    | cons p rest =>
      have hp : mapVolume p = v := hall p (by simp)
      have hrest : ∀ q ∈ rest, mapVolume q = v := fun q hq =>
        hall q (by simp [hq])
      have hconst := runVolume_const v rest hrest
      by_cases hlast : ((mapVolume p : Int) = last)
      · have hlv : ((v : Int)) = last := by rw [← hp]; exact hlast
        simp [runVolume, volumeTick, hlast, ← hlv, hconst]
      · rw [hp] at hlast
        simp [runVolume, volumeTick, hlast, hp, hconst]
  · intro last pot hne
    simp [volumeTick, hne]
  · intro pot
    have hne : ((mapVolume pot : Nat) : Int) ≠ -1 := by omega
    simp [volumeTick, hne]

/-- C7 witness: a constant run from the sentinel, a differing single
reading, and a first reading from the sentinel. -/
theorem volume_change_gating_witness :
    (runVolume (-1) [0, 0, 0]).2.length ≤ 1 ∧
    (volumeTick 5 0).2 = [AudioCall.setVolume (mapVolume 0)] ∧
    (volumeTick (-1) 0).2 = [AudioCall.setVolume (mapVolume 0)] :=
  ⟨volume_change_gating.1 (-1) [0, 0, 0] 1 (by decide),
   volume_change_gating.2.1 5 0 (by decide),
   volume_change_gating.2.2 0⟩

/-- C9. Volume mapping range: every 10-bit potentiometer reading maps to a
volume in `[MIN_VOLUME, MAX_VOLUME] = [1, 25]`, on which the clamp inside
`AudioPlayer::setVolume` is the identity (the command carries the mapped
value unchanged). -/
theorem volume_mapping_range (pot : Nat) (hpot : pot ≤ 1023) :
    MIN_VOLUME ≤ mapVolume pot ∧ mapVolume pot ≤ MAX_VOLUME ∧
    setVolumeClamp (mapVolume pot) = mapVolume pot := by
  have hdiv : pot * (MAX_VOLUME - MIN_VOLUME) / 1023 ≤ 24 := by
    have h1 : pot * (MAX_VOLUME - MIN_VOLUME) ≤ 1023 * 24 := by
      have h2 := Nat.mul_le_mul_right (MAX_VOLUME - MIN_VOLUME) hpot
      simpa [MAX_VOLUME, MIN_VOLUME] using h2
    calc pot * (MAX_VOLUME - MIN_VOLUME) / 1023 ≤ 1023 * 24 / 1023 :=
          Nat.div_le_div_right h1
      _ = 24 := by norm_num
  have hub : mapVolume pot ≤ MAX_VOLUME := by
    simp only [mapVolume, MAX_VOLUME, MIN_VOLUME] at hdiv ⊢
    omega
  have hlb : MIN_VOLUME ≤ mapVolume pot := by
    simp only [mapVolume, MIN_VOLUME]
    omega
  refine ⟨hlb, hub, ?_⟩
  have h30 : ¬ 30 < mapVolume pot := by
    simp only [MAX_VOLUME] at hub
    omega
  simp [setVolumeClamp, h30]

/-- C9 witness: the midpoint reading. -/
theorem volume_mapping_range_witness :
    MIN_VOLUME ≤ mapVolume 512 ∧ mapVolume 512 ≤ MAX_VOLUME ∧
    setVolumeClamp (mapVolume 512) = mapVolume 512 :=
  volume_mapping_range 512 (by decide)

/-- C10. Track-to-filename padding: for every track number in `[1, 9999]`,
`playTrack` issues a play-file command whose path is `"/"`, the decimal track
number left-padded with zeros to exactly 4 digits, and `".mp3"` (followed by
the loop-mode command); `playTrack 0` issues no command at all. -/
theorem track_filename_padding :
    (∀ t, 1 ≤ t → t ≤ 9999 →
      playTrackCmds t = ["AT+PLAYFILE=" ++ specTrackPath t, "AT+PLAYMODE=1"]) ∧
    playTrackCmds 0 = [] := by
  constructor
  · intro t h1 h2
    have ht0 : ¬ t = 0 := by omega
    unfold playTrackCmds
    rw [if_neg ht0, trackFilename_eq_spec t h1 h2]
  · rfl

/-- C10 witness: track 6 maps to `/0006.mp3`. -/
theorem track_filename_padding_witness :
    playTrackCmds 6 = ["AT+PLAYFILE=" ++ specTrackPath 6, "AT+PLAYMODE=1"] :=
  track_filename_padding.1 6 (by decide) (by decide)

/-- C3 witness: one tick from the initial state with a present sample. -/
theorem state_invariants_witness :
    ReconcilerInv (presenceTick initialState (some "C1:98:CC:E4")).1 :=
  state_invariants.2 initialState (some "C1:98:CC:E4") state_invariants.1
    (by intro u hu; injection hu with h; subst h; decide)

/-- C6 witness: an unmapped card presented while a mapped card plays. -/
theorem unmapped_pause_gating_witness :
    (presenceTick ⟨"C1:98:CC:E4", true, 0⟩ (some "AA:BB:CC:DD")).2 =
      [AudioCall.pause] ∧
    (presenceTick ⟨"C1:98:CC:E4", true, 0⟩ (some "AA:BB:CC:DD")).1.isPlaying
      = false ∧
    (presenceTick ⟨"C1:98:CC:E4", true, 0⟩ (some "AA:BB:CC:DD")).1.currentUID
      = "AA:BB:CC:DD" := by
  have h := unmapped_pause_gating ⟨"C1:98:CC:E4", true, 0⟩ "AA:BB:CC:DD"
    (by decide) (by decide)
  simpa using h

end Jukebox
